import Mathlib

/-!
Shallow embedding of the reactive-websocket core: the connection registry,
the topic subscription table (AutoupdateHandler), the replay-1 event bus
(EventMap over rxjs BehaviorSubject), and the message router
(WebsocketHandler) — translated from src/src/api/websocket-handler.ts
(the later revision, which wires the AutoupdateHandler) and the files in
src/src/api/instances (autoupdate-handler.ts, socket-connection.ts,
socket-message.ts) together with the EventMap source.

JavaScript runtime values are modelled by the inductive JsVal; JS objects
and Maps by association lists with first-match lookup and
replace-first-or-append update, which reproduces key order and the
overwrite-in-place behaviour of both plain objects and Map.set.
Thrown TypeErrors are modelled with Except.
-/

set_option autoImplicit false

mutual

/-- A JavaScript runtime value. Numbers are carried as their source
literal (no claim in this development compares numeric values). -/
inductive JsVal where
  | null
  | undef
  | boolean (b : Bool)
  | num (lit : String)
  | str (s : String)
  | arr (elems : JsList)
  | obj (fields : JsFields)
deriving Repr, DecidableEq

/-- A list of JS values (array elements). -/
inductive JsList where
  | nil
  | cons (hd : JsVal) (tl : JsList)
deriving Repr, DecidableEq

/-- The ordered own-properties of a JS object. -/
inductive JsFields where
  | nil
  | cons (key : String) (val : JsVal) (tl : JsFields)
deriving Repr, DecidableEq

end

def JsList.ofList : List JsVal → JsList
  | [] => .nil
  | v :: vs => .cons v (JsList.ofList vs)

def JsFields.ofList : List (String × JsVal) → JsFields
  | [] => .nil
  | (k, v) :: fs => .cons k v (JsFields.ofList fs)

/-- Build a JS array value from a Lean list. -/
def JsVal.mkArr (elems : List JsVal) : JsVal := .arr (JsList.ofList elems)

/-- Build a JS object value from an ordered field list. -/
def JsVal.mkObj (fields : List (String × JsVal)) : JsVal := .obj (JsFields.ofList fields)

/-- First-match field lookup in a JS object (own property read). -/
def JsFields.get : JsFields → String → Option JsVal
  | .nil, _ => none
  | .cons k v rest, key => if k = key then some v else JsFields.get rest key

/-- A thrown JavaScript error (only TypeError arises in the embedded code). -/
inductive JsError where
  | typeError (msg : String)
deriving Repr, DecidableEq

deriving instance DecidableEq for Except

/-- First-match lookup in an association list: JS object property read /
Map.get. -/
def alGet {κ α : Type} [DecidableEq κ] (m : List (κ × α)) (k : κ) : Option α :=
  match m with
  | [] => none
  | (k', v) :: rest => if k' = k then some v else alGet rest k

/-- Replace the first entry with the given key (keeping its position) or
append a fresh entry: JS object property write / Map.set. -/
def alSet {κ α : Type} [DecidableEq κ] (m : List (κ × α)) (k : κ) (v : α) :
    List (κ × α) :=
  match m with
  | [] => [(k, v)]
  | (k', v') :: rest => if k' = k then (k, v) :: rest else (k', v') :: alSet rest k v

/-- Remove every entry with the given key: Map.delete (keys are unique in
all states the embedded code builds, so this deletes the one entry). -/
def alDelete {κ α : Type} [DecidableEq κ] (m : List (κ × α)) (k : κ) :
    List (κ × α) :=
  match m with
  | [] => []
  | (k', v') :: rest => if k' = k then alDelete rest k else (k', v') :: alDelete rest k

/-- Connection identifiers (produced by Random.RandomString in the source). -/
abbrev SocketId := String

/-- A token standing for the identity of one underlying transport
connection object handed to createSocket. -/
abbrev ConnToken := Nat

/-- The topic subscription table: AutoupdateHandler.socketMap, an object
mapping a topic name to the array of subscribed SocketConnection objects.
Stored connections are represented by their id (each SocketConnection
carries exactly the id it was constructed with). -/
abbrev SocketMap := List (String × List SocketId)

/-- One invocation of SocketConnection.send: the id of the connection
object whose send was called, and the JS value it serializes. -/
structure Frame where
  target : SocketId
  payload : JsVal
deriving Repr, DecidableEq

/-- The object literal shape used both by AutoupdateHandler.publish
(socket.send(\x7b event, data \x7d)) and by WebsocketHandler.publish
(this.autoupdateHandler.publish(event, \x7b event, data \x7d)). -/
def envelope (event : String) (data : JsVal) : JsVal :=
  .mkObj [("event", .str event), ("data", data)]

/-- AutoupdateHandler.subscribe: sockets = this.socketMap[event] || [];
sockets.push(socket); this.socketMap[event] = sockets. No deduplication. -/
def AutoupdateHandler.subscribe (m : SocketMap) (event : String) (sid : SocketId) :
    SocketMap :=
  let sockets := (alGet m event).getD []
  alSet m event (sockets ++ [sid])

/-- AutoupdateHandler.unsubscribe: reads this.socketMap[event] without a
guard and calls findIndex on it — a TypeError when the topic has no
entry. Otherwise splices out the first connection whose id matches. -/
def AutoupdateHandler.unsubscribe (m : SocketMap) (event : String) (sid : SocketId) :
    Except JsError SocketMap :=
  match alGet m event with
  | none => .error (.typeError "Cannot read properties of undefined (reading findIndex)")
  | some sockets =>
    match sockets.findIdx? (fun s => s = sid) with
    | some i => .ok (alSet m event (sockets.eraseIdx i))
    | none => .ok m

/-- AutoupdateHandler.publish: iterates for..of over this.socketMap[event]
without a guard — a TypeError when the topic has no entry — and calls
socket.send(\x7b event, data \x7d) on every stored connection object. -/
def AutoupdateHandler.publish (m : SocketMap) (event : String) (data : JsVal) :
    Except JsError (List Frame) :=
  match alGet m event with
  | none => .error (.typeError "undefined is not iterable")
  | some sockets => .ok (sockets.map (fun sid => ⟨sid, envelope event data⟩))

/-- The observable state of one rxjs BehaviorSubject as EventMap uses it:
the current (latest) value — initialised to null by getSubject — and the
active observers in registration order, each with the list of values it
has received so far. -/
structure Subject where
  current : JsVal
  subs : List (Nat × List JsVal)
deriving Repr, DecidableEq

/-- new BehaviorSubject(null): current value is the null sentinel, no
observers yet. -/
def Subject.start : Subject := ⟨.null, []⟩

/-- BehaviorSubject.next(v): store v as the current value and deliver it
to every registered observer in registration order. -/
def Subject.next (s : Subject) (v : JsVal) : Subject :=
  ⟨v, s.subs.map (fun p => (p.1, p.2 ++ [v]))⟩

/-- Observable.subscribe on the subject (via asObservable): the new
observer immediately receives the current value, then is appended to the
observer list for future publications. -/
def Subject.addObserver (s : Subject) (i : Nat) : Subject :=
  ⟨s.current, s.subs ++ [(i, [s.current])]⟩

/-- EventMap.map : Map<string, BehaviorSubject<any>>. The handler calls
pushMessage with parsedMessage.type as key, which at runtime need not be
a string, so the key type is JsVal; string keys enter as JsVal.str. -/
abbrev EventMap := List (JsVal × Subject)

/-- EventMap.getSubject: the subject stored under the name, or the fresh
BehaviorSubject(null) it would lazily create and insert. (The source
inserts the fresh subject into the map; since the inserted value equals
the default, lookup-with-default is extensionally the same map.) -/
def EventMap.getSubject (m : EventMap) (name : JsVal) : Subject :=
  (alGet m name).getD Subject.start

/-- EventMap.pushMessage: observable = getSubject(eventName);
observable.next(data). -/
def EventMap.pushMessage (m : EventMap) (name : JsVal) (v : JsVal) : EventMap :=
  alSet m name ((EventMap.getSubject m name).next v)

/-- Subscribing observer i to the stream EventMap.fromEvent(name) returns
(getSubject(name).asObservable()): replay-1 then live values. -/
def EventMap.observeEvent (m : EventMap) (name : JsVal) (i : Nat) : EventMap :=
  alSet m name ((EventMap.getSubject m name).addObserver i)

/-- The values observer i has received on the named channel so far. -/
def EventMap.receivedBy (m : EventMap) (name : JsVal) (i : Nat) : Option (List JsVal) :=
  alGet (EventMap.getSubject m name).subs i

/-- Push a sequence of values on one channel in order. -/
def EventMap.pushSeq (m : EventMap) (name : JsVal) (vs : List JsVal) : EventMap :=
  vs.foldl (fun acc v => EventMap.pushMessage acc name v) m

/-- The mutable state of WebsocketHandler: the connection registry
(this.sockets : Map<string, SocketConnection>, values abstracted to the
identity of the stored connection object), the AutoupdateHandler's
subscription table, and the EventMap. -/
structure HandlerState where
  sockets : List (SocketId × ConnToken)
  autoupdate : SocketMap
  mapEvents : EventMap
deriving Repr, DecidableEq

/-- WebsocketHandler.onRequest, with the origin check's outcome and the
generated random id passed in: if the origin is allowed, accept, build
the SocketConnection and run this.sockets.set(id, socket) — with no
duplicate check, Map.set semantics. If rejected, no state is touched. -/
def WebsocketHandler.onRequest (st : HandlerState) (originAllowed : Bool)
    (id : SocketId) (c : ConnToken) : HandlerState :=
  if originAllowed then { st with sockets := alSet st.sockets id c } else st

/-- The close callback wired in createSocket: this.sockets.delete(socket.id)
followed by the onClientDisconnect hook (which touches no core state).
The subscription table is not touched. -/
def WebsocketHandler.onSocketClose (st : HandlerState) (sid : SocketId) : HandlerState :=
  { st with sockets := alDelete st.sockets sid }

/-- WebsocketHandler.getSockets: snapshot of the registered ids. -/
def WebsocketHandler.getSockets (st : HandlerState) : List SocketId :=
  st.sockets.map (fun p => p.1)

/-- WebsocketHandler.sendToSocket: this.sockets.get(socket)?.send(message)
— optional chaining makes an absent id a silent no-op. (Note: the
publish fan-out below does not go through this lookup.) -/
def WebsocketHandler.sendToSocket (st : HandlerState) (sid : SocketId)
    (payload : JsVal) : List Frame :=
  match alGet st.sockets sid with
  | some _ => [⟨sid, payload⟩]
  | none => []

/-- WebsocketHandler.publish: this.autoupdateHandler.publish(event,
\x7b event, data \x7d) — the host's data is wrapped into an envelope here and
wrapped again inside AutoupdateHandler.publish. -/
def WebsocketHandler.publish (st : HandlerState) (event : String) (data : JsVal) :
    Except JsError (List Frame) :=
  AutoupdateHandler.publish st.autoupdate event (envelope event data)

/-- The open-brace character, written by code point. -/
def lbraceChar : Char := Char.ofNat 123

/-- The close-brace character, written by code point. -/
def rbraceChar : Char := Char.ofNat 125

/-- JSON insignificant whitespace. -/
def isJsonWs (c : Char) : Bool :=
  c = ' ' || c = '\t' || c = '\n' || c = '\r'

def skipWs : List Char → List Char
  | [] => []
  | c :: cs => if isJsonWs c then skipWs cs else c :: cs

def hexVal (c : Char) : Option Nat :=
  if '0' ≤ c ∧ c ≤ '9' then some (c.toNat - '0'.toNat)
  else if 'a' ≤ c ∧ c ≤ 'f' then some (c.toNat - 'a'.toNat + 10)
  else if 'A' ≤ c ∧ c ≤ 'F' then some (c.toNat - 'A'.toNat + 10)
  else none

/-- Body of a JSON string literal, after the opening quote: returns the
decoded string and the input remaining after the closing quote. -/
def parseStringBody : Nat → List Char → List Char → Option (String × List Char)
  | 0, _, _ => none
  | _ + 1, [], _ => none
  | fuel + 1, c :: rest, acc =>
    if c = '"' then some (String.mk acc.reverse, rest)
    else if c = '\\' then
      match rest with
      | [] => none
      | e :: rest2 =>
        if e = '"' then parseStringBody fuel rest2 ('"' :: acc)
        else if e = '\\' then parseStringBody fuel rest2 ('\\' :: acc)
        else if e = '/' then parseStringBody fuel rest2 ('/' :: acc)
        else if e = 'b' then parseStringBody fuel rest2 (Char.ofNat 8 :: acc)
        else if e = 'f' then parseStringBody fuel rest2 (Char.ofNat 12 :: acc)
        else if e = 'n' then parseStringBody fuel rest2 ('\n' :: acc)
        else if e = 'r' then parseStringBody fuel rest2 ('\r' :: acc)
        else if e = 't' then parseStringBody fuel rest2 ('\t' :: acc)
        else if e = 'u' then
          match rest2 with
          | h1 :: h2 :: h3 :: h4 :: rest3 =>
            match hexVal h1, hexVal h2, hexVal h3, hexVal h4 with
            | some a, some b, some c2, some d =>
              parseStringBody fuel rest3
                (Char.ofNat (((a * 16 + b) * 16 + c2) * 16 + d) :: acc)
            | _, _, _, _ => none
          | _ => none
        else none
    else if c.toNat < 32 then none
    else parseStringBody fuel rest (c :: acc)

def digitSpan : List Char → List Char × List Char
  | [] => ([], [])
  | c :: cs =>
    if c.isDigit then
      let (ds, rest) := digitSpan cs
      (c :: ds, rest)
    else ([], c :: cs)

/-- Optional fraction and exponent of a JSON number, appended to the sign
and integer part already read; returns the literal and the rest. -/
def parseNumberTail (sign intPart : List Char) (cs : List Char) :
    String × List Char :=
  let fracRes : List Char × List Char :=
    match cs with
    | '.' :: r =>
      let (ds, rest) := digitSpan r
      if ds.isEmpty then ([], cs) else ('.' :: ds, rest)
    | _ => ([], cs)
  let cs2 := fracRes.2
  let expRes : List Char × List Char :=
    match cs2 with
    | e :: r =>
      if e = 'e' || e = 'E' then
        let signRes : List Char × List Char :=
          match r with
          | s :: r3 => if s = '+' || s = '-' then ([s], r3) else ([], r)
          | [] => ([], r)
        let (ds, rest) := digitSpan signRes.2
        if ds.isEmpty then ([], cs2) else (e :: (signRes.1 ++ ds), rest)
      else ([], cs2)
    | [] => ([], cs2)
  (String.mk (sign ++ intPart ++ fracRes.1 ++ expRes.1), expRes.2)

/-- A JSON number literal: -? (0 | [1-9][0-9]*) frac? exp?. -/
def parseNumberLit (cs : List Char) : Option (String × List Char) :=
  let signRes : List Char × List Char :=
    match cs with
    | '-' :: r => (['-'], r)
    | _ => ([], cs)
  match signRes.2 with
  | [] => none
  | c :: rest =>
    if c = '0' then some (parseNumberTail signRes.1 ['0'] rest)
    else if c.isDigit then
      let (ds, r2) := digitSpan (c :: rest)
      some (parseNumberTail signRes.1 ds r2)
    else none

mutual

/-- One JSON value, fuel-bounded recursive descent (JSON.parse grammar). -/
def parseVal : Nat → List Char → Option (JsVal × List Char)
  | 0, _ => none
  | fuel + 1, cs =>
    match skipWs cs with
    | [] => none
    | c :: rest =>
      if c = '"' then
        match parseStringBody (rest.length + 1) rest [] with
        | some (s, r) => some (.str s, r)
        | none => none
      else if c = lbraceChar then
        match skipWs rest with
        | c2 :: rest2 =>
          if c2 = rbraceChar then some (.mkObj [], rest2)
          else parseMembers fuel (c2 :: rest2) []
        | [] => none
      else if c = '[' then
        match skipWs rest with
        | c2 :: rest2 =>
          if c2 = ']' then some (.mkArr [], rest2)
          else parseElems fuel (c2 :: rest2) []
        | [] => none
      else if c = 't' then
        match rest with
        | 'r' :: 'u' :: 'e' :: r => some (.boolean true, r)
        | _ => none
      else if c = 'f' then
        match rest with
        | 'a' :: 'l' :: 's' :: 'e' :: r => some (.boolean false, r)
        | _ => none
      else if c = 'n' then
        match rest with
        | 'u' :: 'l' :: 'l' :: r => some (.null, r)
        | _ => none
      else
        match parseNumberLit (c :: rest) with
        | some (lit, r) => some (.num lit, r)
        | none => none

/-- Members of a JSON object, after the opening brace (a later duplicate
key keeps the first position but the last value, as JSON.parse does). -/
def parseMembers : Nat → List Char → List (String × JsVal) →
    Option (JsVal × List Char)
  | 0, _, _ => none
  | fuel + 1, cs, acc =>
    match skipWs cs with
    | '"' :: rest =>
      match parseStringBody (rest.length + 1) rest [] with
      | some (k, r1) =>
        match skipWs r1 with
        | ':' :: r2 =>
          match parseVal fuel r2 with
          | some (v, r3) =>
            match skipWs r3 with
            | c4 :: r4 =>
              if c4 = ',' then parseMembers fuel r4 (alSet acc k v)
              else if c4 = rbraceChar then some (.mkObj (alSet acc k v), r4)
              else none
            | [] => none
          | none => none
        | _ => none
      | none => none
    | _ => none

/-- Elements of a JSON array, after the opening bracket. -/
def parseElems : Nat → List Char → List JsVal → Option (JsVal × List Char)
  | 0, _, _ => none
  | fuel + 1, cs, acc =>
    match parseVal fuel cs with
    | some (v, r1) =>
      match skipWs r1 with
      | c2 :: r2 =>
        if c2 = ',' then parseElems fuel r2 (acc ++ [v])
        else if c2 = ']' then some (.mkArr (acc ++ [v]), r2)
        else none
      | [] => none
    | none => none

end

/-- JSON.parse: one value, optionally surrounded by whitespace, nothing
after it. The fuel bound length+1 is never hit: every recursive step
consumes at least one input character. -/
def jsonParse (s : String) : Option JsVal :=
  match parseVal (s.length + 1) s.data with
  | some (v, rest) => if skipWs rest = [] then some v else none
  | none => none

/-- JS property read v.key: a TypeError on null/undefined, the field on
an object, undefined otherwise (no claim reads array or string fields). -/
def JsVal.getField : JsVal → String → Except JsError JsVal
  | .null, key => .error (.typeError ("Cannot read properties of null (reading " ++ key ++ ")"))
  | .undef, key => .error (.typeError ("Cannot read properties of undefined (reading " ++ key ++ ")"))
  | .obj fields, key => .ok ((fields.get key).getD .undef)
  | _, _ => .ok .undef

mutual

/-- JS String(v), used when a value is coerced to an object property key,
as in this.socketMap[event]. -/
def jsKeyedString : JsVal → String
  | .null => "null"
  | .undef => "undefined"
  | .boolean b => if b then "true" else "false"
  | .num lit => lit
  | .str s => s
  | .arr es => jsArrJoin es
  | .obj _ => "[object Object]"

/-- Array.prototype.join(",") as String() applies it to arrays. -/
def jsArrJoin : JsList → String
  | .nil => ""
  | .cons v .nil => jsArrElem v
  | .cons v rest => jsArrElem v ++ "," ++ jsArrJoin rest

/-- One joined array element: null and undefined print as empty. -/
def jsArrElem : JsVal → String
  | .null => ""
  | .undef => ""
  | .boolean b => if b then "true" else "false"
  | .num lit => lit
  | .str s => s
  | .arr es => jsArrJoin es
  | .obj _ => "[object Object]"

end

/-- One inbound websocket IMessage as SocketConnection receives it. -/
inductive InFrame where
  | utf8Frame (data : String)
  | binaryFrame (bdata : JsVal)
deriving Repr, DecidableEq

/-- The IMessage as a JS object, which parseMessage returns unchanged
(rawMessage as any) on its fallback path. -/
def InFrame.toJs : InFrame → JsVal
  | .utf8Frame s => .mkObj [("type", .str "utf8"), ("utf8Data", .str s)]
  | .binaryFrame b => .mkObj [("type", .str "binary"), ("binaryData", b)]

/-- Result of SocketConnection.parseMessage: the value handed to the
message handler and whether the catch block logged a parse error. -/
structure ParsedOut where
  value : JsVal
  errorLogged : Bool
deriving Repr, DecidableEq

/-- SocketConnection.parseMessage: on a utf8 frame with truthy utf8Data,
JSON.parse inside try/catch — on success the parsed value is returned,
on failure the error is logged and control falls through to the fallback
that returns the raw IMessage itself (rawMessage as any). Binary and
empty-utf8 frames take the fallback without the error log. -/
def parseMessage (raw : InFrame) : ParsedOut :=
  match raw with
  | .utf8Frame s =>
    if s = "" then ⟨raw.toJs, false⟩
    else
      match jsonParse s with
      | some v => ⟨v, false⟩
      | none => ⟨raw.toJs, true⟩
  | .binaryFrame _ => ⟨raw.toJs, false⟩

/-- What one run of the message callback produced: the new subscription
table, the new event map, the value forwarded to the host's onClientSend
hook (if the default branch ran), and whether a parse error was logged. -/
structure MsgEffects where
  autoupdate : SocketMap
  mapEvents : EventMap
  hostForward : Option JsVal
  parseErrorLogged : Bool
deriving Repr, DecidableEq

/-- The message callback wired in WebsocketHandler.createSocket: pushes
\x7b data: parsedMessage.message, socketId \x7d on the event-bus channel keyed
by parsedMessage.type, then switches on parsedMessage.type — subscribe
and unsubscribe mutate the AutoupdateHandler, everything else goes to
the host's onClientSend hook. Property reads on null/undefined and the
unguarded unsubscribe propagate as thrown TypeErrors. -/
def handleMessage (au : SocketMap) (ev : EventMap) (sid : SocketId)
    (raw : InFrame) : Except JsError MsgEffects := do
  let pm := parseMessage raw
  let tkey ← pm.value.getField "type"
  let msg ← pm.value.getField "message"
  let dto : JsVal := .mkObj [("data", msg), ("socketId", .str sid)]
  let ev2 := EventMap.pushMessage ev tkey dto
  if tkey = .str "subscribe" then do
    let evName ← msg.getField "event"
    pure ⟨AutoupdateHandler.subscribe au (jsKeyedString evName) sid, ev2, none,
      pm.errorLogged⟩
  else if tkey = .str "unsubscribe" then do
    let evName ← msg.getField "event"
    let au2 ← AutoupdateHandler.unsubscribe au (jsKeyedString evName) sid
    pure ⟨au2, ev2, none, pm.errorLogged⟩
  else
    pure ⟨au, ev2, some pm.value, pm.errorLogged⟩

/-- Push a sequence of values through BehaviorSubject.next in order. -/
def Subject.nextSeq (s : Subject) (vs : List JsVal) : Subject :=
  vs.foldl Subject.next s

/-- The message callback as it acts on the whole WebsocketHandler state:
the registry is untouched; the subscription table and event map are the
callback's outputs. Also returns what reached the host hook and whether
a parse error was logged. -/
def WebsocketHandler.onMessageCallback (st : HandlerState) (sid : SocketId)
    (raw : InFrame) : Except JsError (HandlerState × Option JsVal × Bool) :=
  (handleMessage st.autoupdate st.mapEvents sid raw).map
    (fun eff => (⟨st.sockets, eff.autoupdate, eff.mapEvents⟩,
      eff.hostForward, eff.parseErrorLogged))

/-! ### Association-list map lemmas -/

theorem alGet_alSet_same {κ α : Type} [DecidableEq κ] (m : List (κ × α)) (k : κ) (v : α) :
    alGet (alSet m k v) k = some v := by
  induction m with
  | nil => simp [alGet, alSet]
  | cons p rest ih =>
    obtain ⟨k1, v1⟩ := p
    by_cases hk : k1 = k
    · simp [alGet, alSet, hk]
    · simp [alGet, alSet, hk, ih]

theorem alGet_alSet_ne {κ α : Type} [DecidableEq κ] (m : List (κ × α)) (k k2 : κ) (v : α)
    (h : k2 ≠ k) : alGet (alSet m k v) k2 = alGet m k2 := by
  have h2 : k ≠ k2 := Ne.symm h
  induction m with
  | nil => simp [alGet, alSet, h2]
  | cons p rest ih =>
    obtain ⟨k1, v1⟩ := p
    by_cases hk : k1 = k
    · subst hk
      simp [alGet, alSet, h2]
    · simp [alGet, alSet, hk, ih]

theorem alGet_map_append (subs : List (Nat × List JsVal)) (v : JsVal) (i : Nat) :
    alGet (subs.map (fun p => (p.1, p.2 ++ [v]))) i
      = (alGet subs i).map (fun r => r ++ [v]) := by
  induction subs with
  | nil => rfl
  | cons p rest ih =>
    obtain ⟨j, r⟩ := p
    by_cases hj : j = i
    · simp [alGet, hj]
    · simp [alGet, hj, ih]

/-! ### Subject and EventMap lemmas -/

theorem nextSeq_current (vs : List JsVal) : ∀ s : Subject,
    (Subject.nextSeq s vs).current = vs.getLastD s.current := by
  induction vs with
  | nil => intro s; rfl
  | cons v vs ih =>
    intro s
    show (Subject.nextSeq (s.next v) vs).current = _
    rw [ih (s.next v), List.getLastD_cons]
    rfl

theorem nextSeq_subs_of_nil (vs : List JsVal) : ∀ s : Subject, s.subs = [] →
    (Subject.nextSeq s vs).subs = [] := by
  induction vs with
  | nil => intro s h; exact h
  | cons v vs ih =>
    intro s h
    show (Subject.nextSeq (s.next v) vs).subs = []
    exact ih _ (by simp [Subject.next, h])

theorem alGet_nextSeq_subs (vs : List JsVal) : ∀ (s : Subject) (i : Nat),
    alGet (Subject.nextSeq s vs).subs i = (alGet s.subs i).map (fun r => r ++ vs) := by
  induction vs with
  | nil =>
    intro s i
    show alGet s.subs i = (alGet s.subs i).map (fun r => r ++ [])
    cases alGet s.subs i <;> simp
  | cons v vs ih =>
    intro s i
    show alGet (Subject.nextSeq (s.next v) vs).subs i = _
    rw [ih (s.next v) i]
    show (alGet (s.subs.map (fun p => (p.1, p.2 ++ [v]))) i).map (fun r => r ++ vs) = _
    rw [alGet_map_append]
    cases alGet s.subs i <;> simp

theorem alGet_addObserver_self (s : Subject) (i : Nat) (h : s.subs = []) :
    alGet (s.addObserver i).subs i = some [s.current] := by
  simp [Subject.addObserver, h, alGet]

theorem getSubject_nil (name : JsVal) : EventMap.getSubject [] name = Subject.start := rfl

theorem getSubject_pushMessage (m : EventMap) (name v : JsVal) :
    EventMap.getSubject (EventMap.pushMessage m name v) name
      = (EventMap.getSubject m name).next v := by
  unfold EventMap.pushMessage EventMap.getSubject
  rw [alGet_alSet_same]
  rfl

theorem getSubject_observeEvent (m : EventMap) (name : JsVal) (i : Nat) :
    EventMap.getSubject (EventMap.observeEvent m name i) name
      = (EventMap.getSubject m name).addObserver i := by
  unfold EventMap.observeEvent EventMap.getSubject
  rw [alGet_alSet_same]
  rfl

theorem getSubject_pushSeq (vs : List JsVal) : ∀ (m : EventMap) (name : JsVal),
    EventMap.getSubject (EventMap.pushSeq m name vs) name
      = Subject.nextSeq (EventMap.getSubject m name) vs := by
  induction vs with
  | nil => intro m name; rfl
  | cons v vs ih =>
    intro m name
    show EventMap.getSubject (EventMap.pushSeq (EventMap.pushMessage m name v) name vs) name = _
    rw [ih, getSubject_pushMessage]
    rfl

/-! ### List helper lemmas -/

theorem filter_eq_replicate_count (l : List SocketId) (a : SocketId) :
    List.filter (fun s => s = a) l = List.replicate (l.count a) a := by
  induction l with
  | nil => rfl
  | cons x xs ih =>
    by_cases hx : x = a
    · subst hx
      simp [List.filter_cons, List.count_cons, ih, List.replicate_succ]
    · simp [List.filter_cons, List.count_cons, hx, ih]

theorem eraseIdx_findIdx_eq_erase (l : List SocketId) (a : SocketId) :
    ∀ i : Nat, l.findIdx? (fun s => s = a) = some i → l.eraseIdx i = l.erase a := by
  induction l with
  | nil => intro i h; simp [List.findIdx?] at h
  | cons x xs ih =>
    intro i h
    rw [List.findIdx?_cons, List.findIdx?_succ] at h
    by_cases hx : x = a
    · rw [if_pos (by simp [hx])] at h
      obtain rfl : (0 : Nat) = i := Option.some.inj h
      show xs = (x :: xs).erase a
      rw [List.erase_cons, if_pos (by simp [hx])]
    · rw [if_neg (by simp [hx])] at h
      obtain ⟨j, hj, hji⟩ := Option.map_eq_some'.mp h
      subst hji
      show x :: xs.eraseIdx j = (x :: xs).erase a
      rw [List.erase_cons, if_neg (by simp [hx])]
      exact congrArg (x :: ·) (ih j hj)

theorem not_mem_of_findIdx_none (l : List SocketId) (a : SocketId)
    (h : l.findIdx? (fun s => s = a) = none) : a ∉ l := by
  induction l with
  | nil => simp
  | cons x xs ih =>
    rw [List.findIdx?_cons, List.findIdx?_succ] at h
    by_cases hx : x = a
    · rw [if_pos (by simp [hx])] at h
      exact absurd h (by simp)
    · rw [if_neg (by simp [hx])] at h
      have h0 : xs.findIdx? (fun s => s = a) = none := Option.map_eq_none'.mp h
      intro hmem
      rcases List.mem_cons.mp hmem with h1 | h2
      · exact hx h1.symm
      · exact ih h0 h2

/-! ### Claim theorems -/

/-- C1 (counterexample): with connection "a" subscribed to topic "t",
WebsocketHandler.publish("t", "m") sends exactly one frame to "a", but its
payload is the doubly wrapped \x7b event:"t", data:\x7b event:"t", data:"m" \x7d \x7d,
which differs from the claimed envelope \x7b event:"t", data:"m" \x7d; so no
envelope equal to the claimed one is sent. -/
theorem publish_envelope_counterexample :
    WebsocketHandler.publish ⟨[("a", 1)], AutoupdateHandler.subscribe [] "t" "a", []⟩
        "t" (.str "m")
      = .ok [⟨"a", envelope "t" (envelope "t" (.str "m"))⟩] ∧
    envelope "t" (envelope "t" (.str "m")) ≠ envelope "t" (.str "m") := by decide

/-- C1 (amended): for a topic T whose subscriber list contains A exactly
once and does not contain B, WebsocketHandler.publish(T, M) succeeds and
sends exactly one frame to A — whose payload is the double wrap
\x7b event:T, data:\x7b event:T, data:M \x7d \x7d, because the handler wraps M into an
envelope and AutoupdateHandler.publish wraps that envelope again — and
sends nothing to B. -/
theorem publish_fanout_double_wrapped (st : HandlerState) (T : String) (M : JsVal)
    (A B : SocketId) (l : List SocketId)
    (hT : alGet st.autoupdate T = some l) (hA : l.count A = 1) (hB : B ∉ l) :
    ∃ fs, WebsocketHandler.publish st T M = .ok fs ∧
      fs.filter (fun fr => fr.target = A) = [⟨A, envelope T (envelope T M)⟩] ∧
      fs.filter (fun fr => fr.target = B) = [] := by
  refine ⟨l.map (fun sid => ⟨sid, envelope T (envelope T M)⟩), ?_, ?_, ?_⟩
  · unfold WebsocketHandler.publish AutoupdateHandler.publish
    rw [hT]
  · rw [List.filter_map]
    have hcomp : ((fun fr => decide (Frame.target fr = A)) ∘
        (fun sid => (⟨sid, envelope T (envelope T M)⟩ : Frame)))
          = fun s => decide (s = A) := rfl
    rw [hcomp, filter_eq_replicate_count, hA]
    rfl
  · rw [List.filter_map]
    have hcomp : ((fun fr => decide (Frame.target fr = B)) ∘
        (fun sid => (⟨sid, envelope T (envelope T M)⟩ : Frame)))
          = fun s => decide (s = B) := rfl
    rw [hcomp, filter_eq_replicate_count, List.count_eq_zero.mpr hB]
    rfl

/-- C1 (witness): the amended fan-out theorem applied at a concrete state
with "a" subscribed once to "t" and "b" not subscribed. -/
theorem publish_fanout_double_wrapped_witness :
    ∃ fs, WebsocketHandler.publish ⟨[("a", 1)], [("t", ["a"])], []⟩ "t" (.str "m")
        = .ok fs ∧
      fs.filter (fun fr => fr.target = "a")
        = [⟨"a", envelope "t" (envelope "t" (.str "m"))⟩] ∧
      fs.filter (fun fr => fr.target = "b") = [] :=
  publish_fanout_double_wrapped ⟨[("a", 1)], [("t", ["a"])], []⟩ "t" (.str "m")
    "a" "b" ["a"] (by decide) (by decide) (by decide)

/-- C2: connection "a" registers, subscribes to topic "rooms" over the
wire, then its transport closes. The close callback removes "a" from the
registry (getSockets is empty) but leaves "a" in the "rooms" subscriber
set — the stale subscription entry survives the close, contradicting the
claim. -/
theorem close_leaves_stale_subscription :
    (WebsocketHandler.onMessageCallback
        (WebsocketHandler.onRequest ⟨[], [], []⟩ true "a" 1) "a"
        (.utf8Frame "\x7b\"type\":\"subscribe\",\"message\":\x7b\"event\":\"rooms\"\x7d\x7d")).map
      (fun r =>
        (WebsocketHandler.getSockets (WebsocketHandler.onSocketClose r.1 "a"),
         alGet (WebsocketHandler.onSocketClose r.1 "a").autoupdate "rooms"))
      = .ok ([], some ["a"]) := by decide

/-- C3: after "a" subscribes to "rooms" and disconnects (absent from the
registry snapshot), publishing on "rooms" raises no error but invokes
send on "a"'s stored connection object: a frame is attempted toward the
dead connection, because fan-out iterates the stored references and
never consults the registry. -/
theorem publish_after_close_targets_stale_connection :
    (WebsocketHandler.onMessageCallback
        (WebsocketHandler.onRequest ⟨[], [], []⟩ true "a" 1) "a"
        (.utf8Frame "\x7b\"type\":\"subscribe\",\"message\":\x7b\"event\":\"rooms\"\x7d\x7d")).map
      (fun r =>
        (WebsocketHandler.getSockets (WebsocketHandler.onSocketClose r.1 "a"),
         WebsocketHandler.publish (WebsocketHandler.onSocketClose r.1 "a") "rooms"
           (.mkObj [("x", .num "2")])))
      = .ok ([],
          .ok [⟨"a", envelope "rooms" (envelope "rooms" (.mkObj [("x", .num "2")]))⟩]) := by
  decide

/-- C4 (counterexample): registering id "x" with connection 1 and then
again with connection 2 silently overwrites — the registry afterwards
maps "x" to connection 2, no error is raised, and the original entry is
not preserved. -/
theorem duplicate_id_overwrite_counterexample :
    alGet (WebsocketHandler.onRequest
        (WebsocketHandler.onRequest ⟨[], [], []⟩ true "x" 1) true "x" 2).sockets "x"
      = some 2 ∧
    alGet (WebsocketHandler.onRequest ⟨[], [], []⟩ true "x" 1).sockets "x"
      = some 1 := by decide

/-- C4 (amended): registration never fails; registering under an id — also
an id already present — simply stores the new connection under that id
(Map.set overwrite), leaving every other id's entry unchanged. -/
theorem onRequest_overwrites_duplicate_id (st : HandlerState) (id : SocketId)
    (c : ConnToken) (other : SocketId) (h : other ≠ id) :
    alGet (WebsocketHandler.onRequest st true id c).sockets id = some c ∧
    alGet (WebsocketHandler.onRequest st true id c).sockets other
      = alGet st.sockets other := by
  constructor
  · show alGet (alSet st.sockets id c) id = some c
    exact alGet_alSet_same st.sockets id c
  · show alGet (alSet st.sockets id c) other = alGet st.sockets other
    exact alGet_alSet_ne st.sockets id other c h

/-- C4 (witness): the amended registration theorem applied at a registry
that already holds "x", re-registering "x" and observing "y". -/
theorem onRequest_overwrites_duplicate_id_witness :
    alGet (WebsocketHandler.onRequest ⟨[("x", 1)], [], []⟩ true "x" 2).sockets "x"
      = some 2 ∧
    alGet (WebsocketHandler.onRequest ⟨[("x", 1)], [], []⟩ true "x" 2).sockets "y"
      = alGet (HandlerState.mk [("x", 1)] [] []).sockets "y" :=
  onRequest_overwrites_duplicate_id ⟨[("x", 1)], [], []⟩ "x" 2 "y" (by decide)

/-- C5: an event-bus observer that subscribes after the publications vs1
on a channel receives the channel's latest value — the null sentinel when
vs1 is empty, the last element of vs1 otherwise — immediately, and then
every later published value (vs2) in publish order. -/
theorem observe_replays_latest_then_publishes (name : JsVal) (vs1 vs2 : List JsVal)
    (i : Nat) :
    EventMap.receivedBy
        (EventMap.pushSeq
          (EventMap.observeEvent (EventMap.pushSeq [] name vs1) name i) name vs2)
        name i
      = some (vs1.getLastD JsVal.null :: vs2) := by
  unfold EventMap.receivedBy
  rw [getSubject_pushSeq, getSubject_observeEvent, getSubject_pushSeq, getSubject_nil,
    alGet_nextSeq_subs,
    alGet_addObserver_self _ i (nextSeq_subs_of_nil vs1 Subject.start rfl),
    nextSeq_current]
  rfl

/-- C6 (counterexample): subscribing "a" to topic "t" twice yields the
subscriber list ["a", "a"] — the set changed on the second call and "a"
appears twice, so subscribe is not idempotent. -/
theorem subscribe_duplicate_counterexample :
    alGet (AutoupdateHandler.subscribe (AutoupdateHandler.subscribe [] "t" "a") "t" "a") "t"
      = some ["a", "a"] ∧
    alGet (AutoupdateHandler.subscribe [] "t" "a") "t" = some ["a"] := by decide

/-- C6 (amended): subscribe(T, A) unconditionally appends A to T's
subscriber list (empty if absent); in particular A's multiplicity grows
by one on every call, with no deduplication. -/
theorem subscribe_appends_no_dedup (m : SocketMap) (T : String) (A : SocketId) :
    alGet (AutoupdateHandler.subscribe m T A) T = some ((alGet m T).getD [] ++ [A]) ∧
    ((alGet (AutoupdateHandler.subscribe m T A) T).getD []).count A
      = ((alGet m T).getD []).count A + 1 := by
  unfold AutoupdateHandler.subscribe
  refine ⟨alGet_alSet_same .., ?_⟩
  rw [alGet_alSet_same]
  simp [List.count_append]

/-- C7 (counterexample): unsubscribing from a topic that has no subscriber
list at all is not a no-op — it fails (TypeError from findIndex on
undefined), so unsubscribe does not "never fail". -/
theorem unsubscribe_missing_topic_counterexample :
    (AutoupdateHandler.unsubscribe [] "t" "a").isOk = false := by decide

/-- C7 (amended): when the topic T has a subscriber list l, unsubscribe
succeeds and removes at most one entry — exactly the first entry whose id
matches A (List.erase), a no-op when A is absent; but when T has no list
the call throws instead. -/
theorem unsubscribe_removes_first_match (m : SocketMap) (T : String) (A : SocketId)
    (l : List SocketId) (h : alGet m T = some l) :
    ∃ m2, AutoupdateHandler.unsubscribe m T A = .ok m2 ∧
      alGet m2 T = some (l.erase A) := by
  cases hidx : l.findIdx? (fun s => s = A) with
  | some i =>
    refine ⟨alSet m T (l.eraseIdx i), ?_, ?_⟩
    · simp [AutoupdateHandler.unsubscribe, h, hidx]
    · rw [alGet_alSet_same, eraseIdx_findIdx_eq_erase l A i hidx]
  | none =>
    refine ⟨m, ?_, ?_⟩
    · simp [AutoupdateHandler.unsubscribe, h, hidx]
    · rw [h, List.erase_of_not_mem (not_mem_of_findIdx_none l A hidx)]

/-- C7 (witness): the amended unsubscribe theorem applied at the table
\x7b t: [a, b, a] \x7d, removing the first "a" only. -/
theorem unsubscribe_removes_first_match_witness :
    ∃ m2, AutoupdateHandler.unsubscribe [("t", ["a", "b", "a"])] "t" "a" = .ok m2 ∧
      alGet m2 "t" = some ((["a", "b", "a"] : List SocketId).erase "a") :=
  unsubscribe_removes_first_match [("t", ["a", "b", "a"])] "t" "a" ["a", "b", "a"]
    (by decide)

/-- C8: publishing on a topic that was never subscribed to throws
(for..of over undefined), while publishing on a topic whose subscriber
list exists but is empty is a silent no-op — the two are not equivalent
and the never-subscribed case is not a no-op, contradicting the claim. -/
theorem publish_unknown_topic_throws :
    (AutoupdateHandler.publish [] "rooms" (.str "m")).isOk = false ∧
    AutoupdateHandler.publish [("rooms", [])] "rooms" (.str "m") = .ok [] := by decide

/-- C9 (counterexample): an inbound utf8 frame with non-JSON payload
(the text beginning with an open brace and "bad") is not dropped: the
raw IMessage object is forwarded to the host's onClientSend hook, and a
value is republished on the event bus under the channel "utf8". -/
theorem malformed_frame_counterexample :
    (handleMessage [] [] "a" (.utf8Frame "\x7bbad")).map
      (fun eff => (eff.hostForward, (alGet eff.mapEvents (JsVal.str "utf8")).isSome,
        eff.autoupdate))
      = .ok (some (InFrame.utf8Frame "\x7bbad").toJs, true, []) := by decide

/-- C9 (amended): for every non-empty utf8 payload that JSON.parse
rejects, the handler logs the parse error, leaves the subscription table
unchanged and throws nothing (the connection stays open) — but the frame
is not dropped: it is republished on the event-bus channel "utf8" (the
IMessage transport type) and the raw IMessage object is forwarded
verbatim to the host's onClientSend hook. -/
theorem malformed_frame_forwarded_not_dropped (au : SocketMap) (ev : EventMap)
    (sid : SocketId) (s : String) (hne : s ≠ "") (hparse : jsonParse s = none) :
    handleMessage au ev sid (.utf8Frame s)
      = .ok ⟨au,
          EventMap.pushMessage ev (.str "utf8")
            (.mkObj [("data", .undef), ("socketId", .str sid)]),
          some (InFrame.utf8Frame s).toJs, true⟩ := by
  have hpm : parseMessage (.utf8Frame s) = ⟨(InFrame.utf8Frame s).toJs, true⟩ := by
    simp [parseMessage, hne, hparse]
  unfold handleMessage
  rw [hpm]
  rfl

/-- C9 (witness): the amended malformed-frame theorem applied to the
concrete non-JSON payload beginning with an open brace and "bad". -/
theorem malformed_frame_forwarded_not_dropped_witness :
    handleMessage [] [] "a" (.utf8Frame "\x7bbad")
      = .ok ⟨[],
          EventMap.pushMessage [] (.str "utf8")
            (.mkObj [("data", .undef), ("socketId", .str "a")]),
          some (InFrame.utf8Frame "\x7bbad").toJs, true⟩ :=
  malformed_frame_forwarded_not_dropped [] [] "a" "\x7bbad" (by decide) (by decide)

/-- C10: the event bus's "no value yet" sentinel is the JS value null
(BehaviorSubject(null)), and a channel on which null was published is
indistinguishable to a newly joining observer from a channel that never
saw a publication: both deliver exactly [null] at the moment of joining. -/
theorem null_sentinel_indistinguishable (name : JsVal) (i : Nat) :
    Subject.start.current = JsVal.null ∧
    EventMap.receivedBy
        (EventMap.observeEvent (EventMap.pushMessage [] name JsVal.null) name i) name i
      = EventMap.receivedBy (EventMap.observeEvent ([] : EventMap) name i) name i := by
  refine ⟨rfl, ?_⟩
  unfold EventMap.receivedBy
  rw [getSubject_observeEvent, getSubject_pushMessage, getSubject_nil]
  rw [getSubject_observeEvent, getSubject_nil]
  rfl
